import Mathlib

/-!
Verification of the Secret Santa QUBO/PUBO encoding from `secret-santa.ipynb`.

The notebook encodes the 3-person Secret Santa assignment problem as a list of
weighted monomials (`Term`s) over six binary variables, one per ordered
(giver, receiver) pair, and submits the resulting minimization problem to a
remote simulated-annealing solver.  The local code consists of `build_terms`
(the six-term quadratic expansion of the exclusive-or penalty
`(x_i + x_j - 1)^2`), the concatenated term list for the three rows and three
columns of the assignment matrix, and `print_results` (decoding a returned
bit configuration into human-readable lines).  The objective semantics
(`evaluate`) and the configuration-validating `build_problem`/`solve` front
end are specified but executed remotely, so they are modelled from the spec.

All coefficients in the source are floating-point literals with small integer
values (1.0, 2.0, -2.0); every quantity ever computed from them is an exact
small integer, so coefficients are embedded as `Int`.
-/

namespace SecretSanta

/-- A weighted monomial over binary variables, mirroring the SDK's
`Term(c = ..., indices = [...])`: a coefficient and an ordered sequence of
variable indices (a repeated index denotes a squared variable and is kept
unreduced, exactly as built by the source). -/
structure Term where
  c : Int
  indices : List Nat
  deriving DecidableEq

/-- The contribution of one term at an assignment: coefficient times the
product of the assignment values at the term's indices (empty product = 1). -/
def termValue (t : Term) (a : Nat → Int) : Int :=
  t.c * (t.indices.map a).prod

/-- Modelled from the spec: the Objective Evaluator `evaluate(terms, assignment)`.
The source submits the term list to a remote solver that minimizes
`sum_k c_k prod_i x_i`, so no local evaluator exists in `src/`; this is the
spec's evaluator, written as the operational loop "for each term, compute its
contribution and add it to the running total". -/
def evaluate (terms : List Term) (a : Nat → Int) : Int :=
  match terms with
  | [] => 0
  | t :: rest => termValue t a + evaluate rest a

/-- `build_terms(i, j)` from the source: the six terms of the quadratic
expansion `x_i^2 + x_j^2 + 2 x_i x_j - 2 x_i - 2 x_j + 1` of
`(x_i + x_j - 1)^2`, appended in source order. -/
def build_terms (i j : Nat) : List Term :=
  [⟨1, [i, i]⟩,     -- x(i)^2
   ⟨1, [j, j]⟩,     -- x(j)^2
   ⟨2, [i, j]⟩,     -- 2x(i)x(j)
   ⟨-2, [i]⟩,       -- -2x(i)
   ⟨-2, [j]⟩,       -- -2x(j)
   ⟨1, []⟩]         -- +1

/-- The (row, column) index pairs of the three row constraints of the
3-person Secret Santa matrix, in source order. -/
def rowPairs : List (Nat × Nat) := [(0, 1), (2, 3), (4, 5)]

/-- The index pairs of the three column constraints, in source order. -/
def colPairs : List (Nat × Nat) := [(2, 4), (0, 5), (1, 3)]

/-- The full term list built by the source:
`terms = build_terms(0,1) + build_terms(2,3) + build_terms(4,5)` followed by
`terms = terms + build_terms(2,4) + build_terms(0,5) + build_terms(1,3)`. -/
def terms : List Term :=
  build_terms 0 1 ++ build_terms 2 3 ++ build_terms 4 5
    ++ build_terms 2 4 ++ build_terms 0 5 ++ build_terms 1 3

/-- An assignment is binary on the six problem variables. -/
def binary6 (a : Nat → Int) : Prop :=
  ∀ k < 6, a k = 0 ∨ a k = 1

instance (a : Nat → Int) : Decidable (binary6 a) := by
  unfold binary6; infer_instance

/-- Exactly one of two binary values is set (the XOR constraint). -/
def exactlyOne (x y : Int) : Prop :=
  (x = 1 ∧ y = 0) ∨ (x = 0 ∧ y = 1)

/-- All six exactly-one row and column constraints of the 3-person instance. -/
def xorConstraints (a : Nat → Int) : Prop :=
  exactlyOne (a 0) (a 1) ∧ exactlyOne (a 2) (a 3) ∧ exactlyOne (a 4) (a 5) ∧
  exactlyOne (a 2) (a 4) ∧ exactlyOne (a 0) (a 5) ∧ exactlyOne (a 1) (a 3)

/-- The fixed message table of `print_results` in the source: one line per
variable index key, as a key-ordered association list (a Python dict preserves
insertion order, and `result[key]` is lookup by key). -/
def result : List (String × String) :=
  [("0", "Vincent buys Tess a gift and writes her a poem."),
   ("1", "Vincent buys Uma a gift and writes her a poem."),
   ("2", "Tess buys Vincent a gift and writes him a poem."),
   ("3", "Tess buys Uma a gift and writes her a poem."),
   ("4", "Uma buys Vincent a gift and writes him a poem."),
   ("5", "Uma buys Tess a gift and writes her a poem.")]

/-- The keys of the message table: the variable indices "0" through "5". -/
def validKeys : List String := result.map Prod.fst

/-- The ways `print_results` can fail: a Python `KeyError` from `result[key]`
on an unknown key, and the spec's `InconsistentSolutionError` (named here only
so that claims about it can be stated; the source never raises it). -/
inductive PyError where
  | keyError : String → PyError
  | inconsistentSolutionError : PyError
  deriving DecidableEq

/-- `print_results(config)` from the source: iterate over the configuration's
(key, value) entries in order; for each entry whose value equals 1, look the
key up in `result` and print the message (an unknown key raises `KeyError`).
The printed lines are collected in order; an uncaught exception aborts the
run. -/
def print_results : List (String × Int) → Except PyError (List String)
  | [] => .ok []
  | (key, val) :: rest =>
    if val = 1 then
      match result.lookup key with
      | none => .error (.keyError key)
      | some msg =>
        match print_results rest with
        | .ok lines => .ok (msg :: lines)
        | .error e => .error e
    else
      print_results rest

/-- The error used by the spec's configuration validation. -/
inductive ConfigError where
  | invalidConfigurationError
  deriving DecidableEq

/-- Modelled from the spec: the unordered pairs of a list of variables, used
by the general one-hot expansion (the quadratic cross terms `2 x_k x_l`). -/
def pairsOf : List Nat → List (Nat × Nat)
  | [] => []
  | x :: xs => (xs.map fun y => (x, y)) ++ pairsOf xs

/-- Modelled from the spec: the full one-hot penalty `(Σ_k x_k − 1)^2`
expanded into squared, cross, linear and constant terms for a row or column
group of any width (§9's generalization policy). -/
def buildOneHot (vars : List Nat) : List Term :=
  (vars.map fun k => Term.mk 1 [k, k])
    ++ (pairsOf vars).map (fun p => Term.mk 2 [p.1, p.2])
    ++ (vars.map fun k => Term.mk (-2) [k])
    ++ [Term.mk 1 []]

/-- Modelled from the spec: the unique variable index of the ordered
(giver, receiver) pair, `giver ≠ receiver`, in the row-major
diagonal-skipping scheme the source's scenario table uses. -/
def varIndex (n g r : Nat) : Nat :=
  g * (n - 1) + (if r < g then r else r - 1)

/-- Modelled from the spec: the candidate-receiver variables of one giver's
row. -/
def rowVars (n g : Nat) : List Nat :=
  ((List.range n).filter (· ≠ g)).map (varIndex n g)

/-- Modelled from the spec: the candidate-giver variables of one receiver's
column. -/
def colVars (n r : Nat) : List Nat :=
  ((List.range n).filter (· ≠ r)).map (fun g => varIndex n g r)

/-- Modelled from the spec: `build_problem(num_people)` — absent from `src/`,
where the 3-person term list is built by hand.  Fails with
`InvalidConfigurationError` if `num_people < 3`; otherwise returns the
concatenated one-hot penalty terms of every giver row and receiver column. -/
def build_problem (num_people : Nat) : Except ConfigError (List Term) :=
  if num_people < 3 then
    .error .invalidConfigurationError
  else
    .ok ((((List.range num_people).map fun g => buildOneHot (rowVars num_people g)).flatten)
      ++ (((List.range num_people).map fun r => buildOneHot (colVars num_people r)).flatten))

/-- Modelled from the spec: `solve` validates the configuration by running
`build_problem` first; the search (taken here as an arbitrary optimizer,
mapping a term list to a best assignment and its cost) begins only after
validation succeeds. -/
def solve (search : List Term → (Nat → Int) × Int) (num_people : Nat) :
    Except ConfigError ((Nat → Int) × Int) :=
  match build_problem num_people with
  | .error e => .error e
  | .ok ts => .ok (search ts)

/- Basic evaluator lemmas shared by the proofs below. -/

theorem evaluate_nil (a : Nat → Int) : evaluate [] a = 0 := rfl

theorem evaluate_cons (t : Term) (l : List Term) (a : Nat → Int) :
    evaluate (t :: l) a = termValue t a + evaluate l a := rfl

theorem evaluate_append (l₁ l₂ : List Term) (a : Nat → Int) :
    evaluate (l₁ ++ l₂) a = evaluate l₁ a + evaluate l₂ a := by
  induction l₁ with
  | nil => simp [evaluate]
  | cons t rest ih => simp [evaluate, ih]; ring

/-- The six terms of `build_terms i j` sum to the square `(a i + a j - 1)^2`
at every integer assignment. -/
theorem evaluate_build_terms (i j : Nat) (a : Nat → Int) :
    evaluate (build_terms i j) a = (a i + a j - 1) ^ 2 := by
  simp [build_terms, evaluate, termValue]; ring

/-- The full objective is the sum of the six row/column penalty squares. -/
theorem evaluate_terms_eq (a : Nat → Int) :
    evaluate terms a =
      (a 0 + a 1 - 1) ^ 2 + (a 2 + a 3 - 1) ^ 2 + (a 4 + a 5 - 1) ^ 2 +
      (a 2 + a 4 - 1) ^ 2 + (a 0 + a 5 - 1) ^ 2 + (a 1 + a 3 - 1) ^ 2 := by
  show evaluate
      (build_terms 0 1 ++ build_terms 2 3 ++ build_terms 4 5
        ++ build_terms 2 4 ++ build_terms 0 5 ++ build_terms 1 3) a = _
  rw [evaluate_append, evaluate_append, evaluate_append, evaluate_append,
    evaluate_append, evaluate_build_terms, evaluate_build_terms,
    evaluate_build_terms, evaluate_build_terms, evaluate_build_terms,
    evaluate_build_terms]

/-- C1: for every pair of variable indices (i, j), `build_terms i j` returns
exactly six terms: coefficient 1 on (i,i), 1 on (j,j), 2 on (i,j), -2 on (i),
-2 on (j) and 1 on the empty index sequence, in that order. -/
theorem build_terms_exact_six (i j : Nat) :
    build_terms i j =
      [⟨1, [i, i]⟩, ⟨1, [j, j]⟩, ⟨2, [i, j]⟩, ⟨-2, [i]⟩, ⟨-2, [j]⟩, ⟨1, []⟩] ∧
    (build_terms i j).length = 6 :=
  ⟨rfl, rfl⟩

/-- C2: for distinct indices (i, j) and a binary assignment, the six terms of
`build_terms i j` sum to `(x_i + x_j - 1)^2`; in particular the sum is 0 at
the mixed corners (0,1) and (1,0) and 1 at the equal corners (0,0) and
(1,1). -/
theorem build_terms_xor_penalty (i j : Nat) (a : Nat → Int) (_hij : i ≠ j)
    (_hi : a i = 0 ∨ a i = 1) (_hj : a j = 0 ∨ a j = 1) :
    evaluate (build_terms i j) a = (a i + a j - 1) ^ 2 ∧
    ((a i = 0 ∧ a j = 1) ∨ (a i = 1 ∧ a j = 0) →
      evaluate (build_terms i j) a = 0) ∧
    ((a i = 0 ∧ a j = 0) ∨ (a i = 1 ∧ a j = 1) →
      evaluate (build_terms i j) a = 1) := by
  refine ⟨evaluate_build_terms i j a, ?_, ?_⟩ <;>
    rintro (⟨h₁, h₂⟩ | ⟨h₁, h₂⟩) <;>
      rw [evaluate_build_terms, h₁, h₂] <;> norm_num

theorem build_terms_xor_penalty_witness :
    evaluate (build_terms 0 1) (fun k => if k = 0 then 1 else 0) =
      ((fun k => if k = 0 then (1 : Int) else 0) 0 +
       (fun k => if k = 0 then (1 : Int) else 0) 1 - 1) ^ 2 ∧
    (((fun k => if k = 0 then (1 : Int) else 0) 0 = 0 ∧
      (fun k => if k = 0 then (1 : Int) else 0) 1 = 1) ∨
     ((fun k => if k = 0 then (1 : Int) else 0) 0 = 1 ∧
      (fun k => if k = 0 then (1 : Int) else 0) 1 = 0) →
      evaluate (build_terms 0 1) (fun k => if k = 0 then 1 else 0) = 0) ∧
    (((fun k => if k = 0 then (1 : Int) else 0) 0 = 0 ∧
      (fun k => if k = 0 then (1 : Int) else 0) 1 = 0) ∨
     ((fun k => if k = 0 then (1 : Int) else 0) 0 = 1 ∧
      (fun k => if k = 0 then (1 : Int) else 0) 1 = 1) →
      evaluate (build_terms 0 1) (fun k => if k = 0 then 1 else 0) = 1) :=
  build_terms_xor_penalty 0 1 (fun k => if k = 0 then 1 else 0)
    (by decide) (by norm_num) (by norm_num)

/-- C9: over binary values a term with the repeated index sequence (i,i)
contributes exactly what the same coefficient on the single index (i) would
contribute, and the unreduced squared term `1·x_i·x_i` is indeed kept in the
built term list. -/
theorem squared_term_eq_linear_term (c : Int) (i j : Nat) (a : Nat → Int)
    (hi : a i = 0 ∨ a i = 1) :
    termValue ⟨c, [i, i]⟩ a = termValue ⟨c, [i]⟩ a ∧
    Term.mk 1 [i, i] ∈ build_terms i j := by
  constructor
  · rcases hi with h | h <;> simp [termValue, h]
  · simp [build_terms]

theorem squared_term_eq_linear_term_witness :
    termValue ⟨5, [2, 2]⟩ (fun k => if k = 2 then 1 else 0) =
      termValue ⟨5, [2]⟩ (fun k => if k = 2 then 1 else 0) ∧
    Term.mk 1 [2, 2] ∈ build_terms 2 3 :=
  squared_term_eq_linear_term 5 2 3 (fun k => if k = 2 then 1 else 0)
    (by norm_num)

/-- Over binary values, a vanishing pair penalty forces exactly one of the
two variables to be set. -/
theorem exactlyOne_of_sq_eq_zero {x y : Int} (_hx : x = 0 ∨ x = 1)
    (hy : y = 0 ∨ y = 1) (h : (x + y - 1) ^ 2 = 0) : exactlyOne x y := by
  have h' := sq_eq_zero_iff.mp h
  unfold exactlyOne
  omega

/-- An exactly-one pair makes its penalty square vanish. -/
theorem sq_eq_zero_of_exactlyOne {x y : Int} (h : exactlyOne x y) :
    (x + y - 1) ^ 2 = 0 := by
  rcases h with ⟨h₁, h₂⟩ | ⟨h₁, h₂⟩ <;> rw [h₁, h₂] <;> norm_num

/-- C3: the 3-person problem uses exactly the six variables 0..5
(N = 3 × (3 − 1)), every binary assignment has objective value at least 0,
and some binary assignment reaches exactly 0. -/
theorem three_people_six_vars_min_zero :
    (∀ v : Nat, v ∈ (terms.map Term.indices).flatten ↔ v < 6) ∧
    (∀ a : Nat → Int, binary6 a → 0 ≤ evaluate terms a) ∧
    (∃ a : Nat → Int, binary6 a ∧ evaluate terms a = 0) := by
  refine ⟨?_, ?_, ?_⟩
  · intro v
    simp [terms, build_terms]
    omega
  · intro a _
    rw [evaluate_terms_eq]
    positivity
  · exact ⟨fun k => if k = 0 ∨ k = 3 ∨ k = 4 then 1 else 0, by decide, by decide⟩

theorem three_people_six_vars_min_zero_witness :
    0 ≤ evaluate terms (fun _ => 0) :=
  three_people_six_vars_min_zero.2.1 (fun _ => 0) (by decide)

/-- C4: for every binary assignment of the six variables, the objective of
the built term list is nonnegative and vanishes exactly when all six
exactly-one row and column constraints hold — so a zero-cost assignment is a
global minimum and early exit on cost 0 is safe. -/
theorem zero_cost_iff_xor_constraints (a : Nat → Int) (h : binary6 a) :
    0 ≤ evaluate terms a ∧ (evaluate terms a = 0 ↔ xorConstraints a) := by
  have h0 := h 0 (by norm_num); have h1 := h 1 (by norm_num)
  have h2 := h 2 (by norm_num); have h3 := h 3 (by norm_num)
  have h4 := h 4 (by norm_num); have h5 := h 5 (by norm_num)
  rw [evaluate_terms_eq]
  refine ⟨by positivity, ?_, ?_⟩
  · intro hz
    have s1 := sq_nonneg (a 0 + a 1 - 1)
    have s2 := sq_nonneg (a 2 + a 3 - 1)
    have s3 := sq_nonneg (a 4 + a 5 - 1)
    have s4 := sq_nonneg (a 2 + a 4 - 1)
    have s5 := sq_nonneg (a 0 + a 5 - 1)
    have s6 := sq_nonneg (a 1 + a 3 - 1)
    exact ⟨exactlyOne_of_sq_eq_zero h0 h1 (by linarith),
           exactlyOne_of_sq_eq_zero h2 h3 (by linarith),
           exactlyOne_of_sq_eq_zero h4 h5 (by linarith),
           exactlyOne_of_sq_eq_zero h2 h4 (by linarith),
           exactlyOne_of_sq_eq_zero h0 h5 (by linarith),
           exactlyOne_of_sq_eq_zero h1 h3 (by linarith)⟩
  · rintro ⟨c1, c2, c3, c4, c5, c6⟩
    rw [sq_eq_zero_of_exactlyOne c1, sq_eq_zero_of_exactlyOne c2,
      sq_eq_zero_of_exactlyOne c3, sq_eq_zero_of_exactlyOne c4,
      sq_eq_zero_of_exactlyOne c5, sq_eq_zero_of_exactlyOne c6]
    norm_num

theorem zero_cost_iff_xor_constraints_witness :
    0 ≤ evaluate terms (fun k => if k = 0 ∨ k = 3 ∨ k = 4 then 1 else 0) ∧
    (evaluate terms (fun k => if k = 0 ∨ k = 3 ∨ k = 4 then 1 else 0) = 0 ↔
      xorConstraints (fun k => if k = 0 ∨ k = 3 ∨ k = 4 then 1 else 0)) :=
  zero_cost_iff_xor_constraints (fun k => if k = 0 ∨ k = 3 ∨ k = 4 then 1 else 0)
    (by decide)

/-- C6: `evaluate` equals the spec's formula — the sum over all terms of the
coefficient times the product of the assignment values at the term's indices,
with the empty product equal to 1 (a constant term contributes exactly its
coefficient) — and it is pure: evaluating the same pair twice yields the same
value. -/
theorem evaluate_is_sum_of_contributions (ts : List Term) (a : Nat → Int) :
    evaluate ts a = (ts.map fun t => t.c * (t.indices.map a).prod).sum ∧
    (∀ c : Int, termValue ⟨c, []⟩ a = c) ∧
    evaluate ts a = evaluate ts a := by
  refine ⟨?_, ?_, rfl⟩
  · induction ts with
    | nil => rfl
    | cons t rest ih => simp [evaluate, termValue, ih]
  · intro c
    simp [termValue]

/-- C7: for every `num_people < 3`, `build_problem` fails with
`InvalidConfigurationError`, and `solve` fails the same way whatever the
search procedure is — the rejection happens before any search begins. -/
theorem invalid_config_rejected_before_search
    (search : List Term → (Nat → Int) × Int) (n : Nat) (h : n < 3) :
    build_problem n = Except.error ConfigError.invalidConfigurationError ∧
    solve search n = Except.error ConfigError.invalidConfigurationError := by
  have hb : build_problem n = Except.error ConfigError.invalidConfigurationError := by
    simp [build_problem, h]
  refine ⟨hb, ?_⟩
  unfold solve
  rw [hb]

theorem invalid_config_rejected_before_search_witness :
    build_problem 2 = Except.error ConfigError.invalidConfigurationError ∧
    solve (fun _ => (fun _ => 0, 0)) 2 =
      Except.error ConfigError.invalidConfigurationError :=
  invalid_config_rejected_before_search (fun _ => (fun _ => 0, 0)) 2 (by decide)

/-- C8: the built term list is exactly the concatenation of the `build_terms`
groups of the row pairs and the column pairs, and each of the six variables
occurs in exactly one row pair and exactly one column pair. -/
theorem each_var_one_row_one_col :
    terms = (rowPairs ++ colPairs).flatMap (fun p => build_terms p.1 p.2) ∧
    ∀ v : Fin 6,
      rowPairs.countP (fun p => p.1 == v.val || p.2 == v.val) = 1 ∧
      colPairs.countP (fun p => p.1 == v.val || p.2 == v.val) = 1 :=
  ⟨rfl, by decide⟩

/-- Key lookup in an association list fails exactly when the key is absent. -/
theorem lookup_none_iff (l : List (String × String)) (k : String) :
    l.lookup k = none ↔ k ∉ l.map Prod.fst := by
  induction l with
  | nil => simp
  | cons p rest ih =>
    obtain ⟨k', v⟩ := p
    by_cases h : k = k'
    · subst h
      simp [List.lookup]
    · have hbeq : (k == k') = false := beq_eq_false_iff_ne.mpr h
      have hstep : ((k', v) :: rest).lookup k = rest.lookup k := by
        simp [List.lookup, hbeq]
      rw [hstep, ih, List.map_cons]
      simp [List.mem_cons, h]

/-- When every key of the configuration is a known variable index,
`print_results` succeeds and prints, in iteration order, the fixed message of
each key whose value equals 1 and nothing for any other value. -/
theorem print_results_ok_of_valid (cfg : List (String × Int)) :
    (∀ p ∈ cfg, p.1 ∈ validKeys) →
    print_results cfg =
      Except.ok (cfg.filterMap fun p => if p.2 = 1 then result.lookup p.1 else none) := by
  induction cfg with
  | nil => intro _; rfl
  | cons p rest ih =>
    intro hall
    obtain ⟨key, val⟩ := p
    have hkey : key ∈ validKeys := hall (key, val) (by simp)
    have hrest := ih fun q hq => hall q (List.mem_cons_of_mem _ hq)
    by_cases hv : val = 1
    · obtain ⟨msg, hmsg⟩ : ∃ m, result.lookup key = some m := by
        cases hres : result.lookup key with
        | none =>
          exact absurd ((lookup_none_iff result key).mp hres)
            (by simpa [validKeys] using hkey)
        | some m => exact ⟨m, rfl⟩
      simp [print_results, hv, hmsg, hrest]
    · simp [print_results, hv, hrest]

/-- When some entry with value 1 has an unknown key, `print_results` aborts
with a `KeyError` on an unknown key. -/
theorem print_results_keyError_of_bad (cfg : List (String × Int)) :
    (∃ p ∈ cfg, p.2 = 1 ∧ p.1 ∉ validKeys) →
    ∃ k, k ∉ validKeys ∧ print_results cfg = Except.error (PyError.keyError k) := by
  induction cfg with
  | nil => intro h; simp at h
  | cons p rest ih =>
    intro hbad
    obtain ⟨key, val⟩ := p
    obtain ⟨q, hq, hq1, hqbad⟩ := hbad
    by_cases hv : val = 1
    · cases hres : result.lookup key with
      | none =>
        refine ⟨key, ?_, by simp [print_results, hv, hres]⟩
        simpa [validKeys] using (lookup_none_iff result key).mp hres
      | some msg =>
        have hkv : key ∈ validKeys := by
          by_contra hc
          have hn : result.lookup key = none :=
            (lookup_none_iff result key).mpr (by simpa [validKeys] using hc)
          rw [hn] at hres
          cases hres
        rcases List.mem_cons.mp hq with heq | hmem
        · subst heq
          exact absurd hkv hqbad
        · obtain ⟨k, hk, hpr⟩ := ih ⟨q, hmem, hq1, hqbad⟩
          exact ⟨k, hk, by simp [print_results, hv, hres, hpr]⟩
    · rcases List.mem_cons.mp hq with heq | hmem
      · subst heq
        exact absurd hq1 hv
      · obtain ⟨k, hk, hpr⟩ := ih ⟨q, hmem, hq1, hqbad⟩
        exact ⟨k, hk, by simp [print_results, hv, hpr]⟩

/-- C10: for a configuration whose keys lie in {"0", ..., "5"},
`print_results` prints exactly one fixed giver-buys-receiver message per key
whose value equals 1, in the mapping's iteration order, and nothing for
entries with any other value; if a key outside that set has value 1 it fails
with an unhandled `KeyError` rather than a domain-specific error. -/
theorem print_results_message_per_set_key (cfg : List (String × Int)) :
    ((∀ p ∈ cfg, p.1 ∈ validKeys) →
      print_results cfg =
        Except.ok (cfg.filterMap fun p => if p.2 = 1 then result.lookup p.1 else none)) ∧
    ((∃ p ∈ cfg, p.2 = 1 ∧ p.1 ∉ validKeys) →
      ∃ k, k ∉ validKeys ∧ print_results cfg = Except.error (PyError.keyError k)) :=
  ⟨print_results_ok_of_valid cfg, print_results_keyError_of_bad cfg⟩

theorem print_results_message_per_set_key_witness :
    print_results [("5", 1), ("1", 0)] =
      Except.ok ([(("5" : String), (1 : Int)), ("1", 0)].filterMap fun p =>
        if p.2 = 1 then result.lookup p.1 else none) ∧
    (∃ k, k ∉ validKeys ∧
      print_results [("9", 1)] = Except.error (PyError.keyError k)) :=
  ⟨(print_results_message_per_set_key [("5", 1), ("1", 0)]).1 (by decide),
   (print_results_message_per_set_key [("9", 1)]).2 ⟨("9", 1), by simp, rfl, by decide⟩⟩

/-- C5 (amended): `print_results` performs no one-hot consistency check: on
every configuration it either reports the lines of the value-1 entries or
fails with a `KeyError` on an unknown key — it never raises
`InconsistentSolutionError`, even for assignments violating the one-hot
constraints. -/
theorem print_results_never_inconsistent (cfg : List (String × Int)) :
    (∃ lines, print_results cfg = Except.ok lines) ∨
    (∃ k, print_results cfg = Except.error (PyError.keyError k)) := by
  induction cfg with
  | nil => exact Or.inl ⟨[], rfl⟩
  | cons p rest ih =>
    obtain ⟨key, val⟩ := p
    by_cases hv : val = 1
    · cases hres : result.lookup key with
      | none => exact Or.inr ⟨key, by simp [print_results, hv, hres]⟩
      | some msg =>
        rcases ih with ⟨lines, hl⟩ | ⟨k, hk⟩
        · exact Or.inl ⟨msg :: lines, by simp [print_results, hv, hres, hl]⟩
        · exact Or.inr ⟨k, by simp [print_results, hv, hres, hk]⟩
    · rcases ih with ⟨lines, hl⟩ | ⟨k, hk⟩
      · exact Or.inl ⟨lines, by simp [print_results, hv, hl]⟩
      · exact Or.inr ⟨k, by simp [print_results, hv, hk]⟩

/-- C5 (counterexample): for the assignment in which two givers (Tess and
Uma) both point to the same receiver (Vincent), `print_results` does not fail
with `InconsistentSolutionError`; it reports both lines as a success. -/
theorem print_results_reports_inconsistent_assignment :
    print_results [("0", 0), ("1", 0), ("2", 1), ("3", 0), ("4", 1), ("5", 0)] =
      Except.ok ["Tess buys Vincent a gift and writes him a poem.",
                 "Uma buys Vincent a gift and writes him a poem."] ∧
    print_results [("0", 0), ("1", 0), ("2", 1), ("3", 0), ("4", 1), ("5", 0)] ≠
      Except.error PyError.inconsistentSolutionError := by
  have h : print_results [("0", 0), ("1", 0), ("2", 1), ("3", 0), ("4", 1), ("5", 0)] =
      Except.ok ["Tess buys Vincent a gift and writes him a poem.",
                 "Uma buys Vincent a gift and writes him a poem."] := rfl
  refine ⟨h, ?_⟩
  rw [h]
  simp

end SecretSanta
